import Mathlib

/-!
Verification development for the kubernetes-troubleshooting MCP repository.

The repository has two programs:
* a server (`main.go`) registering two tools ("k8sgpt", "kubectl") whose calls
  are dispatched to `handleCommandExecution`, which validates the payload,
  tokenizes the argument string with `strings.Fields`, runs the command under a
  context timeout, and classifies the outcome;
* a client (`client/client.go`) whose `runPrompt` drives a bounded
  oracle/tool-call loop over conversation messages.

The embedding below translates those functions.  External effects (the child
process, the chat-completion oracle, the MCP transport, JSON unmarshalling)
are modelled as explicit inputs, so every definition is executable.
-/

/-- Dynamic JSON-like values, modelling Go's `interface{}` payloads decoded
from JSON (`map[string]interface{}`, strings, numbers, booleans, null,
arrays). -/
inductive JsonValue
  | str (s : String)
  | num (n : Int)
  | boolean (b : Bool)
  | null
  | arr (xs : List JsonValue)
  | obj (fields : List (String × JsonValue))

/-- Lookup of a key in a decoded JSON object, modelling `args[key]` on a Go
`map[string]interface{}` (keys of a decoded JSON object are unique, so taking
the first match is faithful). -/
def lookupField (key : String) : List (String × JsonValue) → Option JsonValue
  | [] => none
  | (k, v) :: rest => if k = key then some v else lookupField key rest

/-- Go's `unicode.IsSpace`, i.e. the Unicode White_Space property, decided on
code points: ASCII whitespace, NEL, NBSP, and the higher whitespace code
points (OGHAM SPACE MARK, the EN QUAD..HAIR SPACE range, LINE/PARAGRAPH
SEPARATOR, NARROW NO-BREAK SPACE, MEDIUM MATHEMATICAL SPACE, IDEOGRAPHIC
SPACE). -/
def goIsSpace (c : Char) : Bool :=
  c.toNat = 9 || c.toNat = 10 || c.toNat = 11 || c.toNat = 12 || c.toNat = 13 ||
  c.toNat = 32 || c.toNat = 0x85 || c.toNat = 0xA0 || c.toNat = 0x1680 ||
  (0x2000 ≤ c.toNat && c.toNat ≤ 0x200A) ||
  c.toNat = 0x2028 || c.toNat = 0x2029 || c.toNat = 0x202F ||
  c.toNat = 0x205F || c.toNat = 0x3000

/-- Worker for whitespace splitting: `acc` is the (reversed) word currently
being read.  A separator character flushes the current word; the end of the
input flushes the last word. -/
def fieldsAux (p : Char → Bool) (acc : List Char) : List Char → List (List Char)
  | [] => if acc = [] then [] else [acc.reverse]
  | c :: cs =>
    if p c then
      if acc = [] then fieldsAux p [] cs else acc.reverse :: fieldsAux p [] cs
    else
      fieldsAux p (c :: acc) cs

/-- Splitting a character list around characters satisfying `p`, dropping
empty chunks (the behavior of Go's `strings.FieldsFunc`). -/
def fieldsList (p : Char → Bool) (l : List Char) : List (List Char) :=
  fieldsAux p [] l

/-- Go's `strings.Fields`: split a string around runs of Unicode whitespace,
returning the (possibly empty) list of maximal non-whitespace substrings. -/
def goFields (s : String) : List String :=
  (fieldsList goIsSpace s.data).map (fun w => String.mk w)

/-- Joining character-list words with a separator, used to state the
re-joining direction of the tokenization round trip. -/
def joinChars (sep : List Char) : List (List Char) → List Char
  | [] => []
  | [w] => w
  | w :: ws => w ++ sep ++ joinChars sep ws

/-- Go's `strings.Join(ws, " ")`: concatenate the words with a single space
between consecutive words. -/
def goJoinSpace (ws : List String) : String :=
  String.mk (joinChars [' '] (ws.map String.data))

/-- Classification of the error value returned by `cmd.Run()` in Go: either a
`*exec.ExitError` (the process ran and terminated unsuccessfully; `ExitCode()`
is the exit status, or -1 when the process was terminated by a signal), or any
other error value (start failure, context errors, I/O errors). -/
inductive GoRunError
  | exitError (exitCode : Int)
  | other (message : String)

/-- The environment's answer to one child-process execution: the outcome of
`cmd.Run()`, whether `ctx.Err() == context.DeadlineExceeded` held afterwards,
and the bytes captured in the stdout/stderr buffers. -/
structure ProcEnv where
  runError : Option GoRunError
  deadlineExceeded : Bool
  stdout : String
  stderr : String

/-- Result of one handler call: `ok text` models `(mcp.NewToolResultText(text),
nil)`, `err msg` models `(&mcp.CallToolResult{}, fmt.Errorf(msg))`. -/
inductive HandlerOutcome
  | ok (text : String)
  | err (message : String)
deriving DecidableEq

/-- A handler call's observable behavior: `spawned` records the single child
process started (command name and tokenized arguments), or `none` when
validation failed before `exec.CommandContext` was reached. -/
structure HandlerResult where
  spawned : Option (String × List String)
  outcome : HandlerOutcome
deriving DecidableEq

/-- Rendering of a `time.Duration` that is a whole number of seconds by Go's
`%v` verb (e.g. `30*time.Second` prints as "30s"). -/
def formatGoDuration (seconds : Nat) : String :=
  toString seconds ++ "s"

/-- The fixed placeholder success text for commands with empty stdout. -/
def placeholderOutput : String :=
  "Command executed successfully with no output"

/-- Embedding of `handleCommandExecution` (main.go lines 93-153).  The payload
is `request.Params.Arguments`; `env` supplies what the operating system did
when (and if) the command was run.  Branch order follows the source exactly:
the payload must be a map, its "arguments" field must be a string, then after
`cmd.Run()` an `*exec.ExitError` is checked first, then
`ctx.Err() == context.DeadlineExceeded`, then the catch-all execution error;
otherwise stdout (or the placeholder when empty) is returned as success. -/
def handleCommandExecution (payload : JsonValue) (commandName : String)
    (timeoutSeconds : Nat) (env : ProcEnv) : HandlerResult :=
  match payload with
  | JsonValue.obj fields =>
    match lookupField "arguments" fields with
    | some (JsonValue.str cmdArgs) =>
      let commandArgs := goFields cmdArgs
      match env.runError with
      | some (GoRunError.exitError code) =>
          ⟨some (commandName, commandArgs),
            HandlerOutcome.err
              (commandName ++ " exited with code " ++ toString code ++ ": " ++ env.stderr)⟩
      | some (GoRunError.other msg) =>
          if env.deadlineExceeded then
            ⟨some (commandName, commandArgs),
              HandlerOutcome.err
                (commandName ++ " command timed out after " ++ formatGoDuration timeoutSeconds)⟩
          else
            ⟨some (commandName, commandArgs),
              HandlerOutcome.err
                (commandName ++ " execution failed: " ++ msg ++ "\nstderr: " ++ env.stderr)⟩
      | none =>
          ⟨some (commandName, commandArgs),
            HandlerOutcome.ok (if env.stdout = "" then placeholderOutput else env.stdout)⟩
    | _ =>
        ⟨none, HandlerOutcome.err ("missing or invalid " ++ commandName ++ " argument")⟩
  | _ => ⟨none, HandlerOutcome.err "invalid arguments format"⟩

/-- One conversation message (`openai.ChatCompletionMessage`): role and text
content. -/
structure Message where
  role : String
  content : String
deriving DecidableEq

/-- One tool-call intent returned by the oracle
(`completion.Choices[0].Message.ToolCalls[i].Function`): a tool name and the
raw JSON-encoded argument string. -/
structure ToolCallIntent where
  name : String
  arguments : String
deriving DecidableEq

/-- The part of a chat completion `runPrompt` reads: the first choice's text
content and its tool calls. -/
structure Completion where
  content : String
  toolCalls : List ToolCallIntent
deriving DecidableEq

/-- A callable-tool declaration handed to the oracle
(`openai.ChatCompletionToolParam` function name and description; the parameter
schema is the same fixed single-required-string shape for every tool). -/
structure ChatToolDef where
  name : String
  description : String
deriving DecidableEq

/-- A tool as discovered from the MCP server (`listToolsResult.Tools[i]`). -/
structure McpToolInfo where
  name : String
  description : String
deriving DecidableEq

/-- Outcome of one `mcpClient.CallTool` invocation: a non-nil error, a non-nil
result with its content items, or (nil error, nil result pointer). -/
inductive ToolOutcome
  | failure (errorMessage : String)
  | success (content : List String)
  | nilResult
deriving DecidableEq

/-- State threaded through the loop: the conversation messages
(`params.Messages`), plus instrumentation of the effects the loop performs —
number of `CallTool` invocations, total seconds slept in `time.Sleep` calls,
and number of chat-completion requests issued. -/
structure LoopState where
  messages : List Message
  toolCallCount : Nat
  sleepSeconds : Nat
  rounds : Nat
deriving DecidableEq

/-- How one `runPrompt` call ends.  `answered`/`noToolCalls` carry the
iteration count the source prints (`iteration-1`); `exhausted` is the
"Reached maximum iterations" outcome; only `oracleError` corresponds to a
non-nil returned error. -/
inductive RunOutcome
  | answered (text : String) (iterationsReported : Nat)
  | noToolCalls (iterationsReported : Nat)
  | exhausted
  | oracleError (message : String)
deriving DecidableEq

/-- The error value `runPrompt` returns to its caller: non-nil exactly for a
failed chat-completion request. -/
def runPromptError : RunOutcome → Option String
  | RunOutcome.oracleError e => some e
  | _ => none

/-- The oracle collaborator: given the tool declarations and the conversation
so far, `client.Chat.Completions.New` either fails or yields a completion. -/
abbrev Oracle := List ChatToolDef → List Message → Except String Completion

/-- The JSON decoder collaborator: `json.Unmarshal` of the intent's raw
argument string into a `map[string]interface{}`, failing on invalid JSON or a
non-object document. -/
abbrev JsonDecode := String → Except String (List (String × JsonValue))

/-- The tool transport collaborator: the outcome of the k-th `CallTool`
invocation of the run, for a given tool name and decoded argument map. -/
abbrev ToolTransport := Nat → String → List (String × JsonValue) → ToolOutcome

/-- The system message appended when the intent's arguments fail to decode. -/
def parseErrorMessage (e : String) : String :=
  "Error parsing tool arguments: " ++ e ++ ". Please try again with valid JSON."

/-- The system message appended when a tool invocation fails. -/
def toolFailureMessage (e : String) : String :=
  "Tool execution failed with error: " ++ e ++ "\nPlease try a different approach."

/-- The steering hint appended after every non-empty tool result. -/
def returnResultsHint : String :=
  "If you have obtained the requested information. Please return it directly to the user without making additional tool calls."

/-- Rendering of `fmt.Sprintf("%v", toolResult.Content)` on a slice: elements
separated by single spaces inside brackets (element rendering itself is taken
as given, the loop never inspects it). -/
def renderContent (content : List String) : String :=
  "[" ++ String.intercalate " " content ++ "]"

/-- Embedding of the per-intent body of `runPrompt`'s inner `for _, toolCall`
loop (client.go lines 186-236): decode the raw arguments (on failure append
one system message and move on), otherwise invoke the tool; on failure sleep
2 seconds and append one system message; on success with non-empty content
append the rendered result as an assistant message followed by the steering
hint; on success with empty content, or a nil result pointer, append
nothing. -/
def processIntent (decodeArgs : JsonDecode) (callTool : ToolTransport)
    (st : LoopState) (tc : ToolCallIntent) : LoopState :=
  match decodeArgs tc.arguments with
  | Except.error e =>
      { st with messages := st.messages ++ [⟨"system", parseErrorMessage e⟩] }
  | Except.ok args =>
      match callTool st.toolCallCount tc.name args with
      | ToolOutcome.failure e =>
          { st with
            toolCallCount := st.toolCallCount + 1,
            sleepSeconds := st.sleepSeconds + 2,
            messages := st.messages ++ [⟨"system", toolFailureMessage e⟩] }
      | ToolOutcome.success content =>
          if content.length > 0 then
            { st with
              toolCallCount := st.toolCallCount + 1,
              messages := st.messages ++
                [⟨"assistant", renderContent content⟩, ⟨"system", returnResultsHint⟩] }
          else
            { st with toolCallCount := st.toolCallCount + 1 }
      | ToolOutcome.nilResult =>
          { st with toolCallCount := st.toolCallCount + 1 }

/-- Embedding of `runPrompt`'s `for iteration < maxIterations` loop (client.go
lines 164-239).  `fuel` is `maxIterations - iteration`, so the zero-fuel case
is exactly the loop condition failing, which prints "Reached maximum
iterations" and returns nil.  Within a round, non-empty completion content
returns first, then the empty tool-call list, then every intent is processed
in order and the iteration counter is incremented. -/
def loopAux (oracle : Oracle) (toolDefs : List ChatToolDef)
    (decodeArgs : JsonDecode) (callTool : ToolTransport) :
    Nat → Nat → LoopState → RunOutcome × LoopState
  | _, 0, st => (RunOutcome.exhausted, st)
  | iteration, fuel + 1, st =>
    match oracle toolDefs st.messages with
    | Except.error e =>
        (RunOutcome.oracleError ("failed to create chat completion: " ++ e),
          { st with rounds := st.rounds + 1 })
    | Except.ok completion =>
        let st1 := { st with rounds := st.rounds + 1 }
        if completion.content ≠ "" then
          (RunOutcome.answered completion.content (iteration - 1), st1)
        else if completion.toolCalls = [] then
          (RunOutcome.noToolCalls (iteration - 1), st1)
        else
          loopAux oracle toolDefs decodeArgs callTool (iteration + 1) fuel
            (completion.toolCalls.foldl (processIntent decodeArgs callTool) st1)

/-- The hard-coded iteration bound of `runPrompt` (`maxIterations := 5`). -/
def maxIterations : Nat := 5

/-- The system prompt installed as the first conversation message. -/
def agentSystemPrompt : String :=
  "You are an expert Kubernetes engineer with deep knowledge of cluster operations, troubleshooting, and best practices. Your primary goal is to understand the user's intent and respond appropriately.\n\nIMPORTANT: Only provide analysis or interpretation when explicitly asked. For all other requests, just return the raw output.\n\nWhen executing commands:\n- Plan your tool calls efficiently to minimize the number of calls needed\n- Once you have obtained the requested information, return it immediately\n- Do not make additional tool calls if you already have the information\n- Do not repeat the same tool call unless absolutely necessary\n- Consider combining commands where possible to reduce the number of calls\n\nWhen the user wants you to fix issues or take action:\n- Use k8sgpt tool to get an initial analysis which should include a list of issues and a summary of the issues.\n- Use kubectl tool to implement the necessary fixes. Do not use \"kubectl edit  \" command rather use \"kubectl path\" command to fix the issues.\n- Verify the fixes worked\n- Report back on what was fixed\n- Do not provide analysis or steps unless specifically requested\n\nWhen the user wants just to know if there is an issue with the cluster:\n- Do not make any changes to the cluster unless the user explicitly asks you to do so.\n- Use k8sgpt tool to get an initial analysis\n- Use kubectl tool to get more detailed information\n- Provide a clear, human-friendly explanation of the issues\n- If asked provide a step-by-step plan to fix each issues\n- If asked provide specific kubectl commands that would be needed to fix the issues\n\nWhen the user asks for specific information (like logs, status, etc.):\n- Execute the requested command and return ONLY the raw output\n- DO NOT analyze or interpret the output\n- DO NOT add any explanations or summaries\n- DO NOT format or modify the output\n- If the user wants analysis, they will explicitly ask for it\n\nPay close attention to the user's exact request and whether they want you to make changes or just provide suggestions. Always provide clear explanations and consider security, performance, and reliability in your recommendations."

/-- The initial conversation: the system prompt followed by the user's
question (`params.Messages` before the loop starts). -/
def initMessages (question : String) : List Message :=
  [⟨"system", agentSystemPrompt⟩, ⟨"user", question⟩]

/-- The tool declarations `runPrompt` builds from the MCP tool listing (name
and description copied; the parameter schema is the same for all tools). -/
def mkToolDefinitions (tools : List McpToolInfo) : List ChatToolDef :=
  tools.map (fun t => ⟨t.name, t.description⟩)

/-- Embedding of `runPrompt` (client.go lines 97-243): build the tool
declarations and the initial messages, then run the bounded loop starting at
iteration 1 with fuel `maxIterations - 1`. -/
def runPrompt (oracle : Oracle) (decodeArgs : JsonDecode) (callTool : ToolTransport)
    (tools : List McpToolInfo) (question : String) : RunOutcome × LoopState :=
  loopAux oracle (mkToolDefinitions tools) decodeArgs callTool 1 (maxIterations - 1)
    ⟨initMessages question, 0, 0, 0⟩

/-- Words produced by the splitting worker are non-empty and contain no
separator characters, provided the accumulator contains none. -/
theorem fieldsAux_words (p : Char → Bool) :
    ∀ (l acc : List Char), (∀ c ∈ acc, p c = false) →
      ∀ w ∈ fieldsAux p acc l, w ≠ [] ∧ ∀ c ∈ w, p c = false := by
  intro l
  induction l with
  | nil =>
    intro acc hacc w hw
    by_cases h : acc = []
    · simp [fieldsAux, h] at hw
    · simp only [fieldsAux, if_neg h, List.mem_singleton] at hw
      subst hw
      refine ⟨by simpa using h, ?_⟩
      intro c hc
      exact hacc c (List.mem_reverse.mp hc)
  | cons c cs ih =>
    intro acc hacc w hw
    simp only [fieldsAux] at hw
    by_cases hp : p c
    · rw [if_pos hp] at hw
      by_cases h : acc = []
      · rw [if_pos h] at hw
        exact ih [] (by simp) w hw
      · rw [if_neg h] at hw
        rcases List.mem_cons.mp hw with hw | hw
        · subst hw
          refine ⟨by simpa using h, ?_⟩
          intro x hx
          exact hacc x (List.mem_reverse.mp hx)
        · exact ih [] (by simp) w hw
    · rw [if_neg hp] at hw
      refine ih (c :: acc) ?_ w hw
      intro x hx
      rcases List.mem_cons.mp hx with hx | hx
      · subst hx; exact Bool.eq_false_iff.mpr hp
      · exact hacc x hx

/-- The splitting worker consumes a separator-free block of characters by
moving it (reversed) into the accumulator. -/
theorem fieldsAux_append (p : Char → Bool) :
    ∀ (w : List Char), (∀ c ∈ w, p c = false) →
      ∀ (acc rest : List Char),
        fieldsAux p acc (w ++ rest) = fieldsAux p (w.reverse ++ acc) rest := by
  intro w
  induction w with
  | nil => intro _ acc rest; simp
  | cons c w ih =>
    intro h acc rest
    have hc : p c = false := h c (by simp)
    simp only [List.cons_append, fieldsAux, hc, Bool.false_eq_true, if_false, List.append_eq]
    rw [ih (fun x hx => h x (by simp [hx])) (c :: acc) rest]
    simp [List.append_assoc]

/-- Splitting the single-space join of non-empty, separator-free words
recovers exactly those words. -/
theorem fieldsAux_join (p : Char → Bool) (hsp : p ' ' = true) :
    ∀ ws : List (List Char), (∀ w ∈ ws, w ≠ [] ∧ ∀ c ∈ w, p c = false) →
      fieldsAux p [] (joinChars [' '] ws) = ws := by
  intro ws
  induction ws with
  | nil => intro _; rfl
  | cons w ws ih =>
    intro h
    obtain ⟨hw, hwc⟩ := h w (by simp)
    cases ws with
    | nil =>
      have hj : joinChars [' '] [w] = w ++ [] := by simp [joinChars]
      rw [hj, fieldsAux_append p w hwc [] []]
      simp [fieldsAux, hw]
    | cons w2 ws2 =>
      have hj : joinChars [' '] (w :: w2 :: ws2)
          = w ++ (' ' :: joinChars [' '] (w2 :: ws2)) := by
        simp [joinChars]
      rw [hj, fieldsAux_append p w hwc [] (' ' :: joinChars [' '] (w2 :: ws2))]
      have hrev : w.reverse ++ ([] : List Char) ≠ [] := by simpa using hw
      simp only [fieldsAux, hsp, if_true, if_neg hrev]
      rw [ih (fun x hx => h x (by simp [hx]))]
      simp

/-- Character-level round trip: tokenize, join with single spaces, tokenize
again, and the token list is unchanged. -/
theorem fieldsList_idem (p : Char → Bool) (hsp : p ' ' = true) (l : List Char) :
    fieldsList p (joinChars [' '] (fieldsList p l)) = fieldsList p l :=
  fieldsAux_join p hsp (fieldsList p l)
    (fieldsAux_words p l [] (by intro c hc; simp at hc))

/-- String-level round trip for the tokenization `handleCommandExecution`
performs before execution. -/
theorem goFields_idem (s : String) : goFields (goJoinSpace (goFields s)) = goFields s := by
  have hcomp : (String.data ∘ fun w : List Char => String.mk w) = id := funext fun _ => rfl
  show ((fieldsList goIsSpace
      (joinChars [' ']
        (((fieldsList goIsSpace s.data).map (fun w => String.mk w)).map String.data))).map
      (fun w => String.mk w))
    = (fieldsList goIsSpace s.data).map (fun w => String.mk w)
  rw [List.map_map, hcomp, List.map_id, fieldsList_idem goIsSpace (by decide) s.data]

/-- C9: the whitespace tokenization applied to the argument string before
execution (`strings.Fields`, embedded as `goFields`) yields zero tokens on the
empty string, and is idempotent: re-joining the resulting tokens with single
spaces (`strings.Join(tokens, " ")`, embedded as `goJoinSpace`) and
re-tokenizing yields the same token sequence. -/
theorem c9_tokenization_idempotent :
    goFields "" = [] ∧ ∀ s : String, goFields (goJoinSpace (goFields s)) = goFields s :=
  ⟨rfl, goFields_idem⟩

/-- A well-formed call payload used for concrete handler evaluations. -/
def samplePayload : JsonValue :=
  JsonValue.obj [("arguments", JsonValue.str "get pods -A")]

/-- What the Go runtime delivers for a started child process that is killed
because the context deadline elapsed: the process is terminated by a signal,
so `cmd.Run()` returns an `*exec.ExitError` whose `ExitCode()` is -1, and
`ctx.Err()` is `context.DeadlineExceeded`.  (Per os/exec, the context error
replaces the wait error only when the process exits successfully after
cancellation; a process killed by the cancel signal yields the exit error.) -/
def timeoutKillEnv : ProcEnv :=
  ⟨some (GoRunError.exitError (-1)), true, "", ""⟩

/-- C1: a command whose wall-clock runtime exceeds the configured timeout is
force-terminated, but `handleCommandExecution` checks `*exec.ExitError` before
`ctx.Err() == context.DeadlineExceeded`, and a deadline-killed process
surfaces as an exit error with code -1, so the run is classified as a
non-zero exit ("kubectl exited with code -1: ..."), not with the timeout
message embedding the configured duration.  The claimed behavior fails at
this input. -/
theorem c1_timeout_misclassified :
    (handleCommandExecution samplePayload "kubectl" 30 timeoutKillEnv).outcome
      = HandlerOutcome.err "kubectl exited with code -1: "
    ∧ (handleCommandExecution samplePayload "kubectl" 30 timeoutKillEnv).outcome
      ≠ HandlerOutcome.err ("kubectl command timed out after " ++ formatGoDuration 30) := by
  constructor
  · decide
  · decide

/-- C3: a call payload that is not a key-value mapping fails immediately with
"invalid arguments format", and a mapping without a string "arguments" field
fails immediately with "missing or invalid <command> argument"; in both cases
`spawned = none`, i.e. the Command Executor is never reached and no child
process is started. -/
theorem c3_invalid_arguments (payload : JsonValue) (commandName : String)
    (timeoutSeconds : Nat) (env : ProcEnv) :
    ((∀ fields, payload ≠ JsonValue.obj fields) →
      handleCommandExecution payload commandName timeoutSeconds env
        = ⟨none, HandlerOutcome.err "invalid arguments format"⟩)
    ∧ (∀ fields, payload = JsonValue.obj fields →
      (∀ s, lookupField "arguments" fields ≠ some (JsonValue.str s)) →
      handleCommandExecution payload commandName timeoutSeconds env
        = ⟨none, HandlerOutcome.err ("missing or invalid " ++ commandName ++ " argument")⟩) := by
  constructor
  · intro h
    cases payload with
    | obj fields => exact absurd rfl (h fields)
    | str s => rfl
    | num n => rfl
    | boolean b => rfl
    | null => rfl
    | arr xs => rfl
  · rintro fields rfl h
    simp only [handleCommandExecution]

/-- Witness for C3 at concrete inputs: a string payload and a mapping without
the "arguments" key. -/
theorem c3_invalid_arguments_witness :
    handleCommandExecution (JsonValue.str "x") "kubectl" 30 ⟨none, false, "", ""⟩
      = ⟨none, HandlerOutcome.err "invalid arguments format"⟩
    ∧ handleCommandExecution (JsonValue.obj [("other", JsonValue.str "y")]) "kubectl" 30
        ⟨none, false, "", ""⟩
      = ⟨none, HandlerOutcome.err "missing or invalid kubectl argument"⟩ := by
  constructor
  · exact (c3_invalid_arguments (JsonValue.str "x") "kubectl" 30 ⟨none, false, "", ""⟩).1
      (fun fields hf => JsonValue.noConfusion hf)
  · exact (c3_invalid_arguments (JsonValue.obj [("other", JsonValue.str "y")]) "kubectl" 30
      ⟨none, false, "", ""⟩).2 [("other", JsonValue.str "y")] rfl
      (by intro s; simp [lookupField])

/-- C4: a command that exits with status 0 (`cmd.Run()` returns nil) yields a
success result equal to the captured stdout when it is non-empty, and equal to
the fixed placeholder string when stdout is empty. -/
theorem c4_success_output (fields : List (String × JsonValue)) (commandName : String)
    (timeoutSeconds : Nat) (env : ProcEnv) (cmdArgs : String)
    (hargs : lookupField "arguments" fields = some (JsonValue.str cmdArgs))
    (hrun : env.runError = none) :
    (env.stdout ≠ "" →
      (handleCommandExecution (JsonValue.obj fields) commandName timeoutSeconds env).outcome
        = HandlerOutcome.ok env.stdout)
    ∧ (env.stdout = "" →
      (handleCommandExecution (JsonValue.obj fields) commandName timeoutSeconds env).outcome
        = HandlerOutcome.ok "Command executed successfully with no output") := by
  constructor <;> intro hstd <;>
    simp [handleCommandExecution, hargs, hrun, hstd, placeholderOutput]

/-- Witness for C4: stdout "foo" gives result "foo"; empty stdout gives the
placeholder text. -/
theorem c4_success_output_witness :
    (handleCommandExecution (JsonValue.obj [("arguments", JsonValue.str "get pods")])
        "kubectl" 30 ⟨none, false, "foo", ""⟩).outcome = HandlerOutcome.ok "foo"
    ∧ (handleCommandExecution (JsonValue.obj [("arguments", JsonValue.str "get pods")])
        "kubectl" 30 ⟨none, false, "", ""⟩).outcome
      = HandlerOutcome.ok "Command executed successfully with no output" :=
  ⟨(c4_success_output [("arguments", JsonValue.str "get pods")] "kubectl" 30
      ⟨none, false, "foo", ""⟩ "get pods" (by simp [lookupField]) rfl).1 (by decide),
   (c4_success_output [("arguments", JsonValue.str "get pods")] "kubectl" 30
      ⟨none, false, "", ""⟩ "get pods" (by simp [lookupField]) rfl).2 rfl⟩

/-- C8: a command that terminates with a non-zero exit code yields a failure
whose message is exactly "<command> exited with code <code>: <stderr>" (so it
embeds both the exit code and the captured stderr), and the handler spawned
exactly the one recorded child process — there is no retry. -/
theorem c8_nonzero_exit (fields : List (String × JsonValue)) (commandName : String)
    (timeoutSeconds : Nat) (env : ProcEnv) (cmdArgs : String) (code : Int)
    (hargs : lookupField "arguments" fields = some (JsonValue.str cmdArgs))
    (hrun : env.runError = some (GoRunError.exitError code)) :
    (handleCommandExecution (JsonValue.obj fields) commandName timeoutSeconds env).outcome
      = HandlerOutcome.err
          (commandName ++ " exited with code " ++ toString code ++ ": " ++ env.stderr)
    ∧ (handleCommandExecution (JsonValue.obj fields) commandName timeoutSeconds env).spawned
      = some (commandName, goFields cmdArgs) := by
  constructor <;> simp [handleCommandExecution, hargs, hrun]

/-- Witness for C8: exit code 2 with stderr "bad flag" embeds "2" and
"bad flag" in the failure message. -/
theorem c8_nonzero_exit_witness :
    (handleCommandExecution (JsonValue.obj [("arguments", JsonValue.str "get pods")])
        "kubectl" 30 ⟨some (GoRunError.exitError 2), false, "", "bad flag"⟩).outcome
      = HandlerOutcome.err "kubectl exited with code 2: bad flag" := by
  have h := (c8_nonzero_exit [("arguments", JsonValue.str "get pods")] "kubectl" 30
      ⟨some (GoRunError.exitError 2), false, "", "bad flag"⟩ "get pods" 2
      (by simp [lookupField]) rfl).1
  rw [h]
  decide

/-- Processing one intent never touches the round counter. -/
theorem processIntent_rounds (d : JsonDecode) (c : ToolTransport) (st : LoopState)
    (tc : ToolCallIntent) : (processIntent d c st tc).rounds = st.rounds := by
  cases hd : d tc.arguments with
  | error e => simp [processIntent, hd]
  | ok args =>
    cases hc : c st.toolCallCount tc.name args with
    | failure e => simp [processIntent, hd, hc]
    | success content =>
      by_cases h : content.length > 0 <;> simp [processIntent, hd, hc, h]
    | nilResult => simp [processIntent, hd, hc]

/-- Processing one intent performs at most one tool invocation. -/
theorem processIntent_count_le (d : JsonDecode) (c : ToolTransport) (st : LoopState)
    (tc : ToolCallIntent) : (processIntent d c st tc).toolCallCount ≤ st.toolCallCount + 1 := by
  cases hd : d tc.arguments with
  | error e => simp [processIntent, hd]
  | ok args =>
    cases hc : c st.toolCallCount tc.name args with
    | failure e => simp [processIntent, hd, hc]
    | success content =>
      by_cases h : content.length > 0 <;> simp [processIntent, hd, hc, h]
    | nilResult => simp [processIntent, hd, hc]

/-- Folding a round's intents never touches the round counter. -/
theorem foldl_processIntent_rounds (d : JsonDecode) (c : ToolTransport) :
    ∀ (tcs : List ToolCallIntent) (st : LoopState),
      (tcs.foldl (processIntent d c) st).rounds = st.rounds := by
  intro tcs
  induction tcs with
  | nil => intro st; rfl
  | cons t ts ih =>
    intro st
    rw [List.foldl_cons, ih, processIntent_rounds]

/-- Folding a round's intents performs at most one tool invocation per
intent. -/
theorem foldl_processIntent_count (d : JsonDecode) (c : ToolTransport) :
    ∀ (tcs : List ToolCallIntent) (st : LoopState),
      (tcs.foldl (processIntent d c) st).toolCallCount ≤ st.toolCallCount + tcs.length := by
  intro tcs
  induction tcs with
  | nil => intro st; simp
  | cons t ts ih =>
    intro st
    rw [List.foldl_cons]
    have h1 := ih (processIntent d c st t)
    have h2 := processIntent_count_le d c st t
    simp only [List.length_cons]
    omega

/-- One loop step when the completion carries non-empty final text: the loop
returns that text (reporting `iteration - 1`) at once. -/
theorem loopAux_succ_answered (oracle : Oracle) (toolDefs : List ChatToolDef)
    (d : JsonDecode) (c : ToolTransport) (iteration n : Nat) (st : LoopState)
    (comp : Completion) (h : oracle toolDefs st.messages = Except.ok comp)
    (hne : comp.content ≠ "") :
    loopAux oracle toolDefs d c iteration (n + 1) st
      = (RunOutcome.answered comp.content (iteration - 1),
          { st with rounds := st.rounds + 1 }) := by
  simp [loopAux, h, hne]

/-- One loop step when the completion has no text and no tool calls: the loop
terminates successfully with no further output. -/
theorem loopAux_succ_noToolCalls (oracle : Oracle) (toolDefs : List ChatToolDef)
    (d : JsonDecode) (c : ToolTransport) (iteration n : Nat) (st : LoopState)
    (h : oracle toolDefs st.messages = Except.ok ⟨"", []⟩) :
    loopAux oracle toolDefs d c iteration (n + 1) st
      = (RunOutcome.noToolCalls (iteration - 1), { st with rounds := st.rounds + 1 }) := by
  simp [loopAux, h]

/-- One loop step when the completion has no text and a non-empty tool-call
list: every intent is processed in order and the loop continues. -/
theorem loopAux_succ_dispatch (oracle : Oracle) (toolDefs : List ChatToolDef)
    (d : JsonDecode) (c : ToolTransport) (iteration n : Nat) (st : LoopState)
    (comp : Completion) (h : oracle toolDefs st.messages = Except.ok comp)
    (hc : comp.content = "") (htc : comp.toolCalls ≠ []) :
    loopAux oracle toolDefs d c iteration (n + 1) st
      = loopAux oracle toolDefs d c (iteration + 1) n
          (comp.toolCalls.foldl (processIntent d c) { st with rounds := st.rounds + 1 }) := by
  simp [loopAux, h, hc, htc]

/-- Against an oracle that always answers with empty text and a non-empty
tool-call list, the loop always runs out of fuel: it reports exhaustion, makes
exactly one oracle round per unit of fuel, and (when every response carries
exactly one intent) performs at most one tool invocation per unit of fuel. -/
theorem loopAux_toolcalls_exhaust (oracle : Oracle) (toolDefs : List ChatToolDef)
    (d : JsonDecode) (c : ToolTransport)
    (h : ∀ msgs, ∃ tcs, tcs ≠ [] ∧ oracle toolDefs msgs = Except.ok ⟨"", tcs⟩)
    (hone : ∀ msgs tcs, oracle toolDefs msgs = Except.ok ⟨"", tcs⟩ → tcs.length = 1) :
    ∀ (fuel iteration : Nat) (st : LoopState),
      (loopAux oracle toolDefs d c iteration fuel st).1 = RunOutcome.exhausted
      ∧ (loopAux oracle toolDefs d c iteration fuel st).2.rounds = st.rounds + fuel
      ∧ (loopAux oracle toolDefs d c iteration fuel st).2.toolCallCount
          ≤ st.toolCallCount + fuel := by
  intro fuel
  induction fuel with
  | zero => intro it st; exact ⟨rfl, by simp [loopAux], by simp [loopAux]⟩
  | succ n ih =>
    intro it st
    obtain ⟨tcs, hne, htcs⟩ := h st.messages
    have hlen := hone st.messages tcs htcs
    have hstep : loopAux oracle toolDefs d c it (n + 1) st
        = loopAux oracle toolDefs d c (it + 1) n
            (tcs.foldl (processIntent d c) { st with rounds := st.rounds + 1 }) :=
      loopAux_succ_dispatch oracle toolDefs d c it n st ⟨"", tcs⟩ htcs rfl hne
    rw [hstep]
    obtain ⟨h1, h2, h3⟩ :=
      ih (it + 1) (tcs.foldl (processIntent d c) { st with rounds := st.rounds + 1 })
    refine ⟨h1, ?_, ?_⟩
    · rw [h2, foldl_processIntent_rounds]
      simp
      omega
    · have h4 := foldl_processIntent_count d c tcs { st with rounds := st.rounds + 1 }
      simp only at h4
      omega

/-- When every oracle request succeeds, the loop returns a nil error no
matter what the tools do: tool failures are absorbed into conversation
state. -/
theorem loopAux_no_oracle_error (oracle : Oracle) (toolDefs : List ChatToolDef)
    (d : JsonDecode) (c : ToolTransport)
    (h : ∀ msgs, ∃ comp, oracle toolDefs msgs = Except.ok comp) :
    ∀ (fuel iteration : Nat) (st : LoopState),
      runPromptError (loopAux oracle toolDefs d c iteration fuel st).1 = none := by
  intro fuel
  induction fuel with
  | zero => intro it st; rfl
  | succ n ih =>
    intro it st
    obtain ⟨comp, hcomp⟩ := h st.messages
    by_cases hc : comp.content = ""
    · by_cases htc : comp.toolCalls = []
      · have hcomp0 : oracle toolDefs st.messages = Except.ok ⟨"", []⟩ := by
          rw [hcomp]
          cases comp
          simp at hc htc
          simp [hc, htc]
        rw [loopAux_succ_noToolCalls oracle toolDefs d c it n st hcomp0]
        rfl
      · rw [loopAux_succ_dispatch oracle toolDefs d c it n st comp hcomp hc htc]
        exact ih (it + 1) _
    · rw [loopAux_succ_answered oracle toolDefs d c it n st comp hcomp hc]
      rfl

/-- A stubborn oracle: never final text, always exactly one tool-call
intent. -/
def alwaysToolCallOracle : Oracle :=
  fun _ _ => Except.ok ⟨"", [⟨"kubectl", "raw-args"⟩]⟩

/-- A decoder on which every raw argument string decodes to a one-field
argument map. -/
def okDecode : JsonDecode :=
  fun _ => Except.ok [("arguments", JsonValue.str "get pods")]

/-- A transport on which every call succeeds with one content item. -/
def okTransport : ToolTransport :=
  fun _ _ _ => ToolOutcome.success ["ok"]

/-- A transport on which every call fails. -/
def failTransport : ToolTransport :=
  fun _ _ _ => ToolOutcome.failure "boom"

/-- A transport on which every call succeeds with empty content. -/
def emptyTransport : ToolTransport :=
  fun _ _ _ => ToolOutcome.success []

/-- C2 counterexample: with the hard-coded maximum of 5, an oracle that
always returns one tool-call intent and no final text makes `runPrompt` stop
as exhausted after 4 oracle rounds and 4 tool invocations — not after 5
rounds as claimed (the loop body runs only while the counter, starting at 1,
is strictly below the maximum). -/
theorem c2_counterexample :
    (runPrompt alwaysToolCallOracle okDecode okTransport [] "q").2.rounds = 4
    ∧ ¬ (runPrompt alwaysToolCallOracle okDecode okTransport [] "q").2.rounds = maxIterations
    ∧ (runPrompt alwaysToolCallOracle okDecode okTransport [] "q").1 = RunOutcome.exhausted
    ∧ (runPrompt alwaysToolCallOracle okDecode okTransport [] "q").2.toolCallCount = 4 := by
  refine ⟨by decide, by decide, by decide, by decide⟩

/-- C2 (amended): for every oracle that on every round returns empty final
text and a non-empty list of tool-call intents, `runPrompt` terminates as
exhausted ("could not complete", nil error) after exactly maxIterations - 1
(= 4) oracle rounds, and when each round carries exactly one intent it
invokes the tool at most maxIterations - 1 (= 4) times. -/
theorem c2_amended_exhaustion (oracle : Oracle) (d : JsonDecode) (c : ToolTransport)
    (tools : List McpToolInfo) (question : String)
    (h : ∀ msgs, ∃ tcs, tcs ≠ [] ∧ oracle (mkToolDefinitions tools) msgs = Except.ok ⟨"", tcs⟩)
    (hone : ∀ msgs tcs,
      oracle (mkToolDefinitions tools) msgs = Except.ok ⟨"", tcs⟩ → tcs.length = 1) :
    (runPrompt oracle d c tools question).1 = RunOutcome.exhausted
    ∧ runPromptError (runPrompt oracle d c tools question).1 = none
    ∧ (runPrompt oracle d c tools question).2.rounds = maxIterations - 1
    ∧ (runPrompt oracle d c tools question).2.toolCallCount ≤ maxIterations - 1 := by
  obtain ⟨h1, h2, h3⟩ :=
    loopAux_toolcalls_exhaust oracle (mkToolDefinitions tools) d c h hone
      (maxIterations - 1) 1 ⟨initMessages question, 0, 0, 0⟩
  refine ⟨h1, ?_, ?_, ?_⟩
  · show runPromptError (loopAux oracle (mkToolDefinitions tools) d c 1 (maxIterations - 1)
      ⟨initMessages question, 0, 0, 0⟩).1 = none
    rw [h1]
    rfl
  · show (loopAux oracle (mkToolDefinitions tools) d c 1 (maxIterations - 1)
      ⟨initMessages question, 0, 0, 0⟩).2.rounds = maxIterations - 1
    rw [h2]
    rfl
  · show (loopAux oracle (mkToolDefinitions tools) d c 1 (maxIterations - 1)
      ⟨initMessages question, 0, 0, 0⟩).2.toolCallCount ≤ maxIterations - 1
    exact h3

/-- Witness for the amended C2 at the concrete stubborn oracle. -/
theorem c2_amended_exhaustion_witness :
    (runPrompt alwaysToolCallOracle okDecode okTransport [] "list the pods").1
      = RunOutcome.exhausted
    ∧ (runPrompt alwaysToolCallOracle okDecode okTransport [] "list the pods").2.rounds
      = maxIterations - 1 := by
  have h := c2_amended_exhaustion alwaysToolCallOracle okDecode okTransport [] "list the pods"
    (fun msgs => ⟨[⟨"kubectl", "raw-args"⟩], by simp, rfl⟩)
    (fun msgs tcs htcs => by
      have hx : ([⟨"kubectl", "raw-args"⟩] : List ToolCallIntent) = tcs := by
        have := htcs
        simp only [alwaysToolCallOracle, Except.ok.injEq, Completion.mk.injEq] at this
        exact this.2
      rw [← hx]
      rfl)
  exact ⟨h.1, h.2.2.1⟩

/-- C5: if the oracle's response to the initial conversation carries non-empty
final text, `runPrompt` surfaces that text and terminates successfully in that
same round — after exactly 1 oracle round and 0 tool invocations — regardless
of any tool-call intents in the same response and regardless of which tools
are available. -/
theorem c5_final_text_precedence (oracle : Oracle) (d : JsonDecode) (c : ToolTransport)
    (tools : List McpToolInfo) (question : String) (text : String)
    (tcs : List ToolCallIntent)
    (h : oracle (mkToolDefinitions tools) (initMessages question) = Except.ok ⟨text, tcs⟩)
    (hne : text ≠ "") :
    (runPrompt oracle d c tools question).1 = RunOutcome.answered text 0
    ∧ (runPrompt oracle d c tools question).2.rounds = 1
    ∧ (runPrompt oracle d c tools question).2.toolCallCount = 0 := by
  have hstep : runPrompt oracle d c tools question
      = (RunOutcome.answered text 0, ⟨initMessages question, 0, 0, 1⟩) :=
    loopAux_succ_answered oracle (mkToolDefinitions tools) d c 1 3
      ⟨initMessages question, 0, 0, 0⟩ ⟨text, tcs⟩ h hne
  refine ⟨?_, ?_, ?_⟩ <;> rw [hstep]

/-- Witness for C5: final text "All good" alongside a tool-call intent on
round 1 ends the run with that text after one round. -/
theorem c5_final_text_precedence_witness :
    (runPrompt (fun _ _ => Except.ok ⟨"All good", [⟨"kubectl", "raw-args"⟩]⟩)
        okDecode okTransport [] "q").1 = RunOutcome.answered "All good" 0
    ∧ (runPrompt (fun _ _ => Except.ok ⟨"All good", [⟨"kubectl", "raw-args"⟩]⟩)
        okDecode okTransport [] "q").2.toolCallCount = 0 := by
  have h := c5_final_text_precedence
    (fun _ _ => Except.ok ⟨"All good", [⟨"kubectl", "raw-args"⟩]⟩)
    okDecode okTransport [] "q" "All good" [⟨"kubectl", "raw-args"⟩] rfl (by decide)
  exact ⟨h.1, h.2.2⟩

/-- C6: if the oracle's response to the initial conversation has empty final
text and zero tool-call intents, `runPrompt` terminates successfully (nil
error) in that round, with no tool invocation and the conversation state
unchanged. -/
theorem c6_zero_toolcalls_done (oracle : Oracle) (d : JsonDecode) (c : ToolTransport)
    (tools : List McpToolInfo) (question : String)
    (h : oracle (mkToolDefinitions tools) (initMessages question) = Except.ok ⟨"", []⟩) :
    (runPrompt oracle d c tools question).1 = RunOutcome.noToolCalls 0
    ∧ runPromptError (runPrompt oracle d c tools question).1 = none
    ∧ (runPrompt oracle d c tools question).2.toolCallCount = 0
    ∧ (runPrompt oracle d c tools question).2.messages = initMessages question := by
  have hstep : runPrompt oracle d c tools question
      = (RunOutcome.noToolCalls 0, ⟨initMessages question, 0, 0, 1⟩) :=
    loopAux_succ_noToolCalls oracle (mkToolDefinitions tools) d c 1 3
      ⟨initMessages question, 0, 0, 0⟩ h
  refine ⟨?_, ?_, ?_, ?_⟩ <;> simp [hstep, runPromptError]

/-- Witness for C6 at a concrete silent oracle. -/
theorem c6_zero_toolcalls_done_witness :
    (runPrompt (fun _ _ => Except.ok ⟨"", []⟩) okDecode okTransport [] "q").1
      = RunOutcome.noToolCalls 0
    ∧ (runPrompt (fun _ _ => Except.ok ⟨"", []⟩) okDecode okTransport [] "q").2.toolCallCount
      = 0 := by
  have h := c6_zero_toolcalls_done (fun _ _ => Except.ok ⟨"", []⟩)
    okDecode okTransport [] "q" rfl
  exact ⟨h.1, h.2.2.1⟩

/-- C7: a failed tool invocation appends exactly one system-role message (the
failure summary instructing the oracle to try a different approach), sleeps
the fixed 2 seconds, performs exactly that one invocation, and processing
continues — and whenever every oracle request succeeds, `runPrompt` returns a
nil error no matter how the tools fail. -/
theorem c7_tool_failure_recovery (d : JsonDecode) (c : ToolTransport) (st : LoopState)
    (tc : ToolCallIntent) (args : List (String × JsonValue)) (e : String)
    (hdec : d tc.arguments = Except.ok args)
    (hfail : c st.toolCallCount tc.name args = ToolOutcome.failure e) :
    processIntent d c st tc
      = { st with
          toolCallCount := st.toolCallCount + 1,
          sleepSeconds := st.sleepSeconds + 2,
          messages := st.messages ++ [⟨"system", toolFailureMessage e⟩] }
    ∧ ∀ (oracle : Oracle) (tools : List McpToolInfo) (question : String),
        (∀ msgs, ∃ comp, oracle (mkToolDefinitions tools) msgs = Except.ok comp) →
        runPromptError (runPrompt oracle d c tools question).1 = none := by
  constructor
  · simp [processIntent, hdec, hfail]
  · intro oracle tools question h
    exact loopAux_no_oracle_error oracle (mkToolDefinitions tools) d c h
      (maxIterations - 1) 1 ⟨initMessages question, 0, 0, 0⟩

/-- Witness for C7: a concrete failing transport appends the one system
message and sleeps 2 seconds, and the loop still ends with a nil error. -/
theorem c7_tool_failure_recovery_witness :
    processIntent okDecode failTransport ⟨initMessages "q", 0, 0, 0⟩ ⟨"kubectl", "raw-args"⟩
      = ⟨initMessages "q" ++ [⟨"system", toolFailureMessage "boom"⟩], 1, 2, 0⟩
    ∧ runPromptError
        (runPrompt (fun _ _ => Except.ok ⟨"done", []⟩) okDecode failTransport [] "q").1
      = none := by
  have h := c7_tool_failure_recovery okDecode failTransport ⟨initMessages "q", 0, 0, 0⟩
    ⟨"kubectl", "raw-args"⟩ [("arguments", JsonValue.str "get pods")] "boom" rfl rfl
  exact ⟨h.1, h.2 (fun _ _ => Except.ok ⟨"done", []⟩) [] "q"
    (fun msgs => ⟨⟨"done", []⟩, rfl⟩)⟩

/-- C10: a tool invocation that succeeds with empty result content appends no
message at all — neither the assistant-role result nor the system-role hint —
leaving the conversation unchanged (only the invocation itself happened). -/
theorem c10_empty_result_frame (d : JsonDecode) (c : ToolTransport) (st : LoopState)
    (tc : ToolCallIntent) (args : List (String × JsonValue))
    (hdec : d tc.arguments = Except.ok args)
    (hsucc : c st.toolCallCount tc.name args = ToolOutcome.success []) :
    (processIntent d c st tc).messages = st.messages
    ∧ (processIntent d c st tc).sleepSeconds = st.sleepSeconds
    ∧ processIntent d c st tc = { st with toolCallCount := st.toolCallCount + 1 } := by
  have h : processIntent d c st tc = { st with toolCallCount := st.toolCallCount + 1 } := by
    simp [processIntent, hdec, hsucc]
  exact ⟨by rw [h], by rw [h], h⟩

/-- Witness for C10 at a concrete empty-content transport. -/
theorem c10_empty_result_frame_witness :
    (processIntent okDecode emptyTransport ⟨initMessages "q", 0, 0, 0⟩
        ⟨"kubectl", "raw-args"⟩).messages = initMessages "q"
    ∧ processIntent okDecode emptyTransport ⟨initMessages "q", 0, 0, 0⟩ ⟨"kubectl", "raw-args"⟩
      = ⟨initMessages "q", 1, 0, 0⟩ := by
  have h := c10_empty_result_frame okDecode emptyTransport ⟨initMessages "q", 0, 0, 0⟩
    ⟨"kubectl", "raw-args"⟩ [("arguments", JsonValue.str "get pods")] rfl rfl
  exact ⟨h.1, h.2.2⟩
